import Mathlib

/-!
Verification development for the voice-sandwich pipeline
(`src/python/src/voice_agent.py` and `src/components/python/src/events.py`).

The Python code is sequential: the LCEL chain in `VoicePipeline` is a
pull-driven composition of async generators with no task spawning, so it is
embedded here as pure Lean functions over explicit environments (oracles for
the transcription, agent and TTS backends) that produce traces of the
externally observable actions.
-/

/-- Python `str.strip()` whitespace test, restricted to the ASCII whitespace
characters Python strips (space, tab, newline, carriage return, vertical tab,
form feed); the strings handled by the pipeline are ASCII. -/
def pyIsSpace (c : Char) : Bool :=
  c == ' ' || c == '\t' || c == '\n' || c == '\r' || c == '\x0b' || c == '\x0c'

/-- `str.strip()` on a character list: drop whitespace from both ends. -/
def pyStripChars (l : List Char) : List Char :=
  ((l.dropWhile pyIsSpace).reverse.dropWhile pyIsSpace).reverse

/-- Python `str.strip()` as used by `_play_tts_from_text` (line 33) and
`_agent_stream` (line 140) of `voice_agent.py`. -/
def pyStrip (s : String) : String :=
  ⟨pyStripChars s.data⟩

lemma dropWhile_head_false {p : Char → Bool} {l : List Char} {c : Char}
    (h : l.head? = some c) (hc : p c = false) : l.dropWhile p = l := by
  cases l with
  | nil => simp at h
  | cons x xs =>
    simp only [List.head?_cons, Option.some.injEq] at h
    subst h
    exact List.dropWhile_cons_of_neg (by simp [hc])

lemma head?_dropWhile_false (p : Char → Bool) (l : List Char) {c : Char}
    (h : (l.dropWhile p).head? = some c) : p c = false := by
  induction l with
  | nil => exact absurd h (by simp)
  | cons x xs ih =>
    by_cases hx : p x
    · rw [List.dropWhile_cons_of_pos hx] at h
      exact ih h
    · rw [List.dropWhile_cons_of_neg hx] at h
      simp only [List.head?_cons, Option.some.injEq] at h
      subst h
      simpa using hx

lemma dropWhile_dropWhile (p : Char → Bool) (l : List Char) :
    (l.dropWhile p).dropWhile p = l.dropWhile p := by
  cases h : (l.dropWhile p).head? with
  | none =>
    have : l.dropWhile p = [] := by
      cases hl : l.dropWhile p with
      | nil => rfl
      | cons a as => rw [hl] at h; simp at h
    simp [this]
  | some c =>
    exact dropWhile_head_false h (head?_dropWhile_false p l h)

lemma getLast?_dropWhile (p : Char → Bool) (l : List Char)
    (h : l.dropWhile p ≠ []) : (l.dropWhile p).getLast? = l.getLast? := by
  induction l with
  | nil => simp at h
  | cons x xs ih =>
    by_cases hx : p x
    · rw [List.dropWhile_cons_of_pos hx] at h ⊢
      rw [ih h]
      have hxs : xs ≠ [] := by
        intro hnil
        apply h
        simp [hnil]
      cases xs with
      | nil => exact absurd rfl hxs
      | cons y ys => simp [List.getLast?_cons_cons]
    · rw [List.dropWhile_cons_of_neg hx]

/-- `pyStripChars` is idempotent: a string already stripped on both ends is
unchanged by a second strip. -/
lemma pyStripChars_idem (l : List Char) :
    pyStripChars (pyStripChars l) = pyStripChars l := by
  unfold pyStripChars
  set A := l.dropWhile pyIsSpace with hA
  set B := A.reverse.dropWhile pyIsSpace with hB
  by_cases hBnil : B = []
  · simp [hBnil]
  · have hfront : B.reverse.dropWhile pyIsSpace = B.reverse := by
      cases hh : B.reverse.head? with
      | none =>
        have : B.reverse = [] := by
          cases hr : B.reverse with
          | nil => rfl
          | cons a as => rw [hr] at hh; simp at hh
        simp [this]
      | some c =>
        apply dropWhile_head_false hh
        rw [List.head?_reverse] at hh
        rw [hB, getLast?_dropWhile _ _ (by rw [← hB]; exact hBnil)] at hh
        rw [List.getLast?_reverse] at hh
        have hAfalse : pyIsSpace c = false := by
          apply head?_dropWhile_false pyIsSpace l
          rw [← hA]; exact hh
        exact hAfalse
    rw [hfront, List.reverse_reverse, hB, dropWhile_dropWhile]

/-- `pyStrip` is idempotent. -/
lemma pyStrip_idem (s : String) : pyStrip (pyStrip s) = pyStrip s := by
  unfold pyStrip
  exact congrArg String.mk (pyStripChars_idem s.data)

/-! ### Base64 (model of Python `base64.b64encode` / `b64decode`)

`event_to_dict` in `events.py` serializes the `tts_chunk` audio payload with
`base64.b64encode(event.audio).decode("ascii")`.  Bytes are modelled as `Nat`
values below 256. -/

/-- The standard base64 alphabet, in index order. -/
def b64Alphabet : List Char :=
  ['A', 'B', 'C', 'D', 'E', 'F', 'G', 'H', 'I', 'J', 'K', 'L', 'M',
   'N', 'O', 'P', 'Q', 'R', 'S', 'T', 'U', 'V', 'W', 'X', 'Y', 'Z',
   'a', 'b', 'c', 'd', 'e', 'f', 'g', 'h', 'i', 'j', 'k', 'l', 'm',
   'n', 'o', 'p', 'q', 'r', 's', 't', 'u', 'v', 'w', 'x', 'y', 'z',
   '0', '1', '2', '3', '4', '5', '6', '7', '8', '9', '+', '/']

/-- Character for a 6-bit value. -/
def sextetToChar (s : Nat) : Char :=
  b64Alphabet.getD s 'A'

/-- 6-bit value of an alphabet character (`none` for non-alphabet input,
including the pad character). -/
def charToSextet (c : Char) : Option Nat :=
  b64Alphabet.findIdx? (fun x => x == c)

/-- Base64 encoding, grouping the byte list three bytes at a time exactly as
`base64.b64encode` does, with `=` padding. -/
def b64EncodeGroups : List Nat → List Char
  | a :: b :: c :: rest =>
    sextetToChar (a / 4) ::
    sextetToChar (a % 4 * 16 + b / 16) ::
    sextetToChar (b % 16 * 4 + c / 64) ::
    sextetToChar (c % 64) ::
    b64EncodeGroups rest
  | [a, b] =>
    [sextetToChar (a / 4), sextetToChar (a % 4 * 16 + b / 16),
     sextetToChar (b % 16 * 4), '=']
  | [a] =>
    [sextetToChar (a / 4), sextetToChar (a % 4 * 16), '=', '=']
  | [] => []

/-- Base64 decoding, the inverse direction of `base64.b64decode`: four
characters at a time, honouring `=` padding in a final group. -/
def b64DecodeGroups : List Char → Option (List Nat)
  | [] => some []
  | [c1, c2, c3, c4] =>
    match charToSextet c1, charToSextet c2 with
    | some s1, some s2 =>
      if c3 = '=' then
        if c4 = '=' then
          if s2 % 16 = 0 then some [s1 * 4 + s2 / 16] else none
        else none
      else
        match charToSextet c3 with
        | some s3 =>
          if c4 = '=' then
            if s3 % 4 = 0 then
              some [s1 * 4 + s2 / 16, s2 % 16 * 16 + s3 / 4]
            else none
          else
            match charToSextet c4 with
            | some s4 =>
              some [s1 * 4 + s2 / 16, s2 % 16 * 16 + s3 / 4, s3 % 4 * 64 + s4]
            | none => none
        | none => none
    | _, _ => none
  | c1 :: c2 :: c3 :: c4 :: rest =>
    match charToSextet c1, charToSextet c2, charToSextet c3, charToSextet c4 with
    | some s1, some s2, some s3, some s4 =>
      match b64DecodeGroups rest with
      | some bs =>
        some ((s1 * 4 + s2 / 16) :: (s2 % 16 * 16 + s3 / 4) :: (s3 % 4 * 64 + s4) :: bs)
      | none => none
    | _, _, _, _ => none
  | _ => none

lemma charToSextet_sextetToChar_fin :
    ∀ s : Fin 64, charToSextet (sextetToChar s.val) = some s.val := by decide

lemma sextetToChar_ne_pad_fin : ∀ s : Fin 64, sextetToChar s.val ≠ '=' := by decide

lemma charToSextet_sextetToChar {s : Nat} (h : s < 64) :
    charToSextet (sextetToChar s) = some s :=
  charToSextet_sextetToChar_fin ⟨s, h⟩

lemma sextetToChar_ne_pad {s : Nat} (h : s < 64) : sextetToChar s ≠ '=' :=
  sextetToChar_ne_pad_fin ⟨s, h⟩

lemma b64EncodeGroups_eq_nil {l : List Nat} (h : b64EncodeGroups l = []) :
    l = [] := by
  match l with
  | [] => rfl
  | [a] => simp [b64EncodeGroups] at h
  | [a, b] => simp [b64EncodeGroups] at h
  | a :: b :: c :: rest => simp [b64EncodeGroups] at h

/-- Serialize-then-decode round trip for base64: decoding the encoding of any
byte list recovers it exactly. -/
theorem b64_roundtrip :
    ∀ l : List Nat, (∀ b ∈ l, b < 256) →
      b64DecodeGroups (b64EncodeGroups l) = some l := by
  intro l
  induction l using b64EncodeGroups.induct with
  | case1 a b c rest ih =>
    intro hb
    have ha256 : a < 256 := hb a (by simp)
    have hb256 : b < 256 := hb b (by simp)
    have hc256 : c < 256 := hb c (by simp)
    have h1 : a / 4 < 64 := by omega
    have h2 : a % 4 * 16 + b / 16 < 64 := by omega
    have h3 : b % 16 * 4 + c / 64 < 64 := by omega
    have h4 : c % 64 < 64 := by omega
    have hrest : b64DecodeGroups (b64EncodeGroups rest) = some rest :=
      ih (fun x hx => hb x (by simp [hx]))
    rw [b64EncodeGroups]
    cases hre : b64EncodeGroups rest with
    | nil =>
      have hnil : rest = [] := b64EncodeGroups_eq_nil hre
      subst hnil
      simp only [b64DecodeGroups, charToSextet_sextetToChar h1,
        charToSextet_sextetToChar h2, charToSextet_sextetToChar h3,
        charToSextet_sextetToChar h4, sextetToChar_ne_pad h3,
        sextetToChar_ne_pad h4, if_false, ite_false]
      simp only [Option.some.injEq, List.cons.injEq, and_true]
      omega
    | cons e es =>
      rw [hre] at hrest
      simp only [b64DecodeGroups, charToSextet_sextetToChar h1,
        charToSextet_sextetToChar h2, charToSextet_sextetToChar h3,
        charToSextet_sextetToChar h4, hrest]
      simp only [Option.some.injEq, List.cons.injEq, and_true]
      omega
  | case2 a b =>
    intro hb
    have ha256 : a < 256 := hb a (by simp)
    have hb256 : b < 256 := hb b (by simp)
    have h1 : a / 4 < 64 := by omega
    have h2 : a % 4 * 16 + b / 16 < 64 := by omega
    have h3 : b % 16 * 4 < 64 := by omega
    have h34 : b % 16 * 4 % 4 = 0 := by omega
    rw [b64EncodeGroups]
    simp only [b64DecodeGroups, charToSextet_sextetToChar h1,
      charToSextet_sextetToChar h2, charToSextet_sextetToChar h3,
      sextetToChar_ne_pad h3, if_false, ite_false, ite_true, h34, if_true]
    simp only [Option.some.injEq, List.cons.injEq, and_true]
    omega
  | case3 a =>
    intro hb
    have ha256 : a < 256 := hb a (by simp)
    have h1 : a / 4 < 64 := by omega
    have h2 : a % 4 * 16 < 64 := by omega
    have h216 : a % 4 * 16 % 16 = 0 := by omega
    rw [b64EncodeGroups]
    simp only [b64DecodeGroups, charToSextet_sextetToChar h1,
      charToSextet_sextetToChar h2, ite_true, h216, if_true]
    simp only [Option.some.injEq, List.cons.injEq, and_true]
    omega
  | case4 =>
    intro _
    simp [b64EncodeGroups, b64DecodeGroups]

/-! ### Event model (`src/components/python/src/events.py`)

One inductive with a constructor per `type` discriminant; the dataclasses'
`type` string literal is the constructor tag.  Timestamps (`_now_ms()` in the
source, an external clock read) are passed to the factories explicitly. -/

/-- A Python value appearing in the serialized dictionaries produced by
`event_to_dict`: strings, integers, or nested string-keyed dictionaries
(the `args` mapping of a `tool_call`). -/
inductive DVal where
  | str : String → DVal
  | int : Int → DVal
  | dict : List (String × DVal) → DVal

/-- The closed union `VoiceAgentEvent` of `events.py`, with each dataclass's
payload fields.  Audio payloads are byte lists (`Nat` below 256). -/
inductive VoiceAgentEvent where
  | userInput (audio : List Nat) (ts : Int)
  | sttChunk (transcript : String) (ts : Int)
  | sttOutput (transcript : String) (ts : Int)
  | agentChunk (text : String) (ts : Int)
  | agentEnd (ts : Int)
  | toolCall (id : String) (name : String) (args : List (String × DVal)) (ts : Int)
  | toolResult (toolCallId : String) (name : String) (result : String) (ts : Int)
  | ttsChunk (audio : List Nat) (ts : Int)

/-- `UserInputEvent.create` (events.py line 44): total, no validation. -/
def UserInputEvent.create (audio : List Nat) (ts : Int) : VoiceAgentEvent :=
  .userInput audio ts

/-- `ToolCallEvent.create` (events.py line 179): total, no validation. -/
def ToolCallEvent.create (id name : String) (args : List (String × DVal))
    (ts : Int) : VoiceAgentEvent :=
  .toolCall id name args ts

/-- `ToolResultEvent.create` (events.py line 208): total; it accepts any
`tool_call_id` and performs no check against previously emitted events. -/
def ToolResultEvent.create (toolCallId name result : String) (ts : Int) :
    VoiceAgentEvent :=
  .toolResult toolCallId name result ts

/-- `TTSChunkEvent.create` (events.py line 254). -/
def TTSChunkEvent.create (audio : List Nat) (ts : Int) : VoiceAgentEvent :=
  .ttsChunk audio ts

/-- `event_to_dict` (events.py lines 263-298), field for field.  Note the
`UserInputEvent` branch (line 265) returns only `type` and `ts` — the raw
audio payload is omitted — while the `TTSChunkEvent` branch (line 291)
base64-encodes its audio payload. -/
def event_to_dict : VoiceAgentEvent → List (String × DVal)
  | .userInput _ ts => [("type", .str "user_input"), ("ts", .int ts)]
  | .sttChunk transcript ts =>
    [("type", .str "stt_chunk"), ("transcript", .str transcript), ("ts", .int ts)]
  | .sttOutput transcript ts =>
    [("type", .str "stt_output"), ("transcript", .str transcript), ("ts", .int ts)]
  | .agentChunk text ts =>
    [("type", .str "agent_chunk"), ("text", .str text), ("ts", .int ts)]
  | .agentEnd ts => [("type", .str "agent_end"), ("ts", .int ts)]
  | .toolCall id name args ts =>
    [("type", .str "tool_call"), ("id", .str id), ("name", .str name),
     ("args", .dict args), ("ts", .int ts)]
  | .toolResult toolCallId name result ts =>
    [("type", .str "tool_result"), ("toolCallId", .str toolCallId),
     ("name", .str name), ("result", .str result), ("ts", .int ts)]
  | .ttsChunk audio ts =>
    [("type", .str "tts_chunk"), ("audio", .str ⟨b64EncodeGroups audio⟩),
     ("ts", .int ts)]

/-- Dictionary field access on a serialized record. -/
def getField (k : String) : List (String × DVal) → Option DVal
  | [] => none
  | (k', v) :: rest => if k' = k then some v else getField k rest

/-- The `tool_call` ids occurring in a stream, in order. -/
def toolCallIds : List VoiceAgentEvent → List String
  | [] => []
  | .toolCall id _ _ _ :: rest => id :: toolCallIds rest
  | _ :: rest => toolCallIds rest

/-- Modelled from the spec: the stream invariant of spec §3 — every
`tool_result`'s call id references a `tool_call` emitted earlier in the same
stream.  `seen` accumulates the ids of the `tool_call` events already passed.
No code in `events.py` or `voice_agent.py` computes or enforces this;
it exists here only as the spec-side predicate to test the code against. -/
def wfAux (seen : List String) : List VoiceAgentEvent → Bool
  | [] => true
  | .toolCall id _ _ _ :: rest => wfAux (id :: seen) rest
  | .toolResult cid _ _ _ :: rest => seen.contains cid && wfAux seen rest
  | _ :: rest => wfAux seen rest

/-- Modelled from the spec: well-formedness of a whole agent event stream. -/
def wellFormedStream (es : List VoiceAgentEvent) : Bool :=
  wfAux [] es

/-- The tool-call ids visible after scanning `l` starting from `seen`. -/
def seenAfter : List VoiceAgentEvent → List String → List String
  | [], seen => seen
  | .toolCall id _ _ _ :: rest, seen => seenAfter rest (id :: seen)
  | _ :: rest, seen => seenAfter rest seen

lemma wfAux_append (l₁ l₂ : List VoiceAgentEvent) :
    ∀ seen, wfAux seen (l₁ ++ l₂) = (wfAux seen l₁ && wfAux (seenAfter l₁ seen) l₂) := by
  induction l₁ with
  | nil => intro seen; simp [wfAux, seenAfter]
  | cons e rest ih =>
    intro seen
    cases e with
    | toolCall id name args ts =>
      simp only [List.cons_append, wfAux, seenAfter]
      exact ih (id :: seen)
    | toolResult cid name result ts =>
      simp only [List.cons_append, wfAux, seenAfter, List.append_eq]
      rw [ih seen, Bool.and_assoc]
    | userInput audio ts => simp only [List.cons_append, wfAux, seenAfter]; exact ih seen
    | sttChunk t ts => simp only [List.cons_append, wfAux, seenAfter]; exact ih seen
    | sttOutput t ts => simp only [List.cons_append, wfAux, seenAfter]; exact ih seen
    | agentChunk t ts => simp only [List.cons_append, wfAux, seenAfter]; exact ih seen
    | agentEnd ts => simp only [List.cons_append, wfAux, seenAfter]; exact ih seen
    | ttsChunk audio ts => simp only [List.cons_append, wfAux, seenAfter]; exact ih seen

lemma mem_seenAfter (c : String) :
    ∀ (l : List VoiceAgentEvent) (seen : List String),
      c ∈ seenAfter l seen ↔ (c ∈ toolCallIds l ∨ c ∈ seen) := by
  intro l
  induction l with
  | nil => intro seen; simp [seenAfter, toolCallIds]
  | cons e rest ih =>
    intro seen
    cases e with
    | toolCall id name args ts =>
      simp only [seenAfter, toolCallIds]
      rw [ih (id :: seen)]
      simp only [List.mem_cons]
      tauto
    | toolResult cid name result ts =>
      simp only [seenAfter, toolCallIds]; exact ih seen
    | userInput audio ts => simp only [seenAfter, toolCallIds]; exact ih seen
    | sttChunk t ts => simp only [seenAfter, toolCallIds]; exact ih seen
    | sttOutput t ts => simp only [seenAfter, toolCallIds]; exact ih seen
    | agentChunk t ts => simp only [seenAfter, toolCallIds]; exact ih seen
    | agentEnd ts => simp only [seenAfter, toolCallIds]; exact ih seen
    | ttsChunk audio ts => simp only [seenAfter, toolCallIds]; exact ih seen

/-! ### Synthesis/playback stage (`_play_tts_from_text`, voice_agent.py 31-61)

The function is embedded as a trace-producing pure function: its argument
stream of PCM chunks is modelled as the list of chunks the backend yields
followed by an optional exception it then raises (`KeyboardInterrupt` is
`cancel`, any `Exception` is `failure`). -/

/-- Exceptions distinguished by the orchestrator: `cancel` models
`KeyboardInterrupt` (a `BaseException`, not caught by `except Exception`),
`failure` models any `Exception` raised by a backend. -/
inductive Exc where
  | cancel
  | failure
deriving DecidableEq

/-- The `p.open(...)` keyword arguments at voice_agent.py lines 44-50. -/
structure AudioOutConfig where
  format : Nat
  channels : Nat
  rate : Nat
  output : Bool
  framesPerBuffer : Nat
deriving DecidableEq

/-- `pyaudio.paInt16`, PyAudio's constant for 16-bit signed integer samples. -/
def paInt16 : Nat := 8

/-- The exact configuration `_play_tts_from_text` opens its output stream
with: `format=pyaudio.paInt16, channels=1, rate=16000, output=True,
frames_per_buffer=1600`. -/
def playbackConfig : AudioOutConfig :=
  ⟨paInt16, 1, 16000, true, 1600⟩

/-- Externally observable actions of one `_play_tts_from_text` call:
requesting the synthesis stream (`text_to_speech_stream(...)`, line 41),
acquiring the output device (lines 43-50), writing one PCM chunk (line 56),
and the three release steps of the `finally` block (lines 59-61). -/
inductive TTSAct where
  | synthRequest (text : String)
  | deviceOpen (cfg : AudioOutConfig)
  | write (chunk : List Nat)
  | stopStream
  | closeStream
  | terminate
deriving DecidableEq

/-- `_play_tts_from_text`: strip the text; if empty, return at once with no
actions; otherwise request synthesis of the stripped text, open the device,
write every yielded chunk in order and, via `finally`, release the device
before returning or re-raising the backend's exception. -/
def playTTS (text : String) (chunks : List (List Nat)) (fail : Option Exc) :
    List TTSAct × Except Exc Unit :=
  if pyStrip text = "" then ([], .ok ())
  else
    (TTSAct.synthRequest (pyStrip text) :: TTSAct.deviceOpen playbackConfig ::
       (chunks.map TTSAct.write ++ [TTSAct.stopStream, TTSAct.closeStream, TTSAct.terminate]),
     match fail with
     | none => .ok ()
     | some e => .error e)

/-! ### Agent stage chunk accumulation (`_agent_stream`, voice_agent.py 115-144) -/

/-- One item of `agent.astream(..., stream_mode="messages")`: whether the
message is an `AIMessage` and its `text` property.  The loop body appends
`message.text` exactly when `isinstance(message, AIMessage) and message.text`
(line 135), i.e. when the message is an AI message with non-empty text. -/
structure AgentMsg where
  isAI : Bool
  text : String
deriving DecidableEq

/-- The chunk texts `_agent_stream` accumulates, in arrival order. -/
def agentChunks (msgs : List AgentMsg) : List String :=
  msgs.filterMap (fun m => if m.isAI && !(m.text == "") then some m.text else none)

/-- `response_text = "".join(agent_response_chunks).strip()` (line 140). -/
def responseText (msgs : List AgentMsg) : String :=
  pyStrip (String.join (agentChunks msgs))

/-! ### Pipeline orchestrator (`VoicePipeline`, voice_agent.py 68-177)

`run()` loops `while True`, driving one single-sentinel `astream` pass per
iteration; each pass performs at most one turn.  The three backends are
oracles indexed by turn number.  The embedding emits a trace of stage-call
entry/exit events plus the list of texts handed to the TTS stage. -/

/-- The three pipeline stages of a turn. -/
inductive Stage where
  | capture
  | agent
  | tts
deriving DecidableEq

/-- Stage-call boundary events: `enter s t` is the orchestrator starting the
stage-`s` call of turn `t`; `exit s t` is that call returning or raising. -/
inductive PLEvent where
  | enter (s : Stage) (turn : Nat)
  | exit (s : Stage) (turn : Nat)
deriving DecidableEq

/-- The backend oracles: what `self.transcribe_fn(turn)`,
`self.agent.astream(...)` and `self.tts_fn(response_text)` do on each turn. -/
structure Env where
  transcribe : Nat → Except Exc String
  agentRun : String → Nat → Except Exc (List AgentMsg)
  tts : String → Nat → Except Exc Unit

/-- Outcome a finished (non-raising) turn records. -/
inductive TurnStatus where
  | skippedEmptyTranscript
  | skippedEmptyResponse
  | completed
deriving DecidableEq

/-- Result of one turn: its stage-call trace, the texts passed to the TTS
stage, and either a status (the sentinel pass ended normally and the
`while True` loop continues) or the exception that escaped the generators. -/
structure TurnOut where
  trace : List PLEvent
  ttsCalls : List (Nat × String)
  result : Except Exc TurnStatus

/-- One `while True` iteration of `VoicePipeline.run`: the single sentinel
drives `_transcribe_stream` (which catches `Exception` from the STT call and
skips the turn, lines 103-111), then `_agent_stream` (lines 121-144, joining
and stripping the chunks and skipping empty responses), then `_tts_stream`
(line 156).  Agent and TTS exceptions are not caught inside the generators
and escape the `astream` pass. -/
def runTurn (env : Env) (t : Nat) : TurnOut :=
  match env.transcribe t with
  | .error .cancel =>
    ⟨[.enter .capture t, .exit .capture t], [], .error .cancel⟩
  | .error .failure =>
    ⟨[.enter .capture t, .exit .capture t], [], .ok .skippedEmptyTranscript⟩
  | .ok transcript =>
    if transcript = "" then
      ⟨[.enter .capture t, .exit .capture t], [], .ok .skippedEmptyTranscript⟩
    else
      match env.agentRun transcript t with
      | .error e =>
        ⟨[.enter .capture t, .exit .capture t, .enter .agent t, .exit .agent t],
         [], .error e⟩
      | .ok msgs =>
        if responseText msgs = "" then
          ⟨[.enter .capture t, .exit .capture t, .enter .agent t, .exit .agent t],
           [], .ok .skippedEmptyResponse⟩
        else
          match env.tts (responseText msgs) t with
          | .error e =>
            ⟨[.enter .capture t, .exit .capture t, .enter .agent t, .exit .agent t,
              .enter .tts t, .exit .tts t],
             [(t, responseText msgs)], .error e⟩
          | .ok _ =>
            ⟨[.enter .capture t, .exit .capture t, .enter .agent t, .exit .agent t,
              .enter .tts t, .exit .tts t],
             [(t, responseText msgs)], .ok .completed⟩

/-- How `VoicePipeline.run` ends: out of fuel (the loop is really unbounded),
stopped by the `except Exception` handler at the `run` boundary (lines
171-172 — note the handler is OUTSIDE the `while True`, so it ends the
loop), or by a propagating `KeyboardInterrupt` (lines 169-170). -/
inductive RunExit where
  | fuelOut
  | stoppedOnError
  | cancelled
deriving DecidableEq

/-- Result of `VoicePipeline.run` up to `fuel` turns.  `outputs` lists the
turns whose `astream` pass yielded a pipeline output (the
`{"turn": t, "status": "tts_complete"}` dict `_tts_stream` yields, line
157): exactly the fully completed turns.  Each such yield binds the loop
variable `output` of `run`'s `async for` (line 167); a skipped turn's pass
yields nothing, and a failing pass raises before its yield. -/
structure RunOut where
  trace : List PLEvent
  ttsCalls : List (Nat × String)
  outputs : List Nat
  outcome : RunExit

/-- The `while True` loop of `VoicePipeline.run` starting at turn `t`,
bounded by `fuel` iterations: a turn ending in a status lets the loop
continue with turn `t + 1` (a completed turn having yielded its pipeline
output); an escaping exception ends the loop — reaching the boundary
handlers of `run` for `Exception`, or propagating for
`KeyboardInterrupt`. -/
def runLoop (env : Env) : Nat → Nat → RunOut
  | 0, _ => ⟨[], [], [], .fuelOut⟩
  | fuel + 1, t =>
    match (runTurn env t).result with
    | .ok s =>
      ⟨(runTurn env t).trace ++ (runLoop env fuel (t + 1)).trace,
       (runTurn env t).ttsCalls ++ (runLoop env fuel (t + 1)).ttsCalls,
       (if s = .completed then [t] else []) ++ (runLoop env fuel (t + 1)).outputs,
       (runLoop env fuel (t + 1)).outcome⟩
    | .error .failure =>
      ⟨(runTurn env t).trace, (runTurn env t).ttsCalls, [], .stoppedOnError⟩
    | .error .cancel =>
      ⟨(runTurn env t).trace, (runTurn env t).ttsCalls, [], .cancelled⟩

/-- `VoicePipeline.run` itself: the loop plus its boundary handlers.
`KeyboardInterrupt` is re-raised (lines 169-170).  A stage `Exception` is
caught by the handler at lines 171-173, but that handler's second debug
print references the loop variable `output` (line 173): if no pass of this
run ever yielded a pipeline output — no turn completed before the failure —
`output` is unbound and the handler itself raises `UnboundLocalError`, an
`Exception` that propagates past `run`; only when some earlier turn
completed (binding `output`) does `run` swallow the stage error and return
normally.  The duplicate handlers at lines 174-177 are dead code: they
belong to the same `try` and cannot catch an exception raised inside a
sibling handler. -/
def runModel (env : Env) (fuel t : Nat) : RunOut × Except Exc Unit :=
  let r := runLoop env fuel t
  (r, match r.outcome with
      | .cancelled => .error .cancel
      | .stoppedOnError => if r.outputs = [] then .error .failure else .ok ()
      | .fuelOut => .ok ())

/-- Turn number an event belongs to. -/
def turnOf : PLEvent → Nat
  | .enter _ t => t
  | .exit _ t => t

/-- Whether two adjacent trace events are a stage-call entry immediately
followed by the matching exit. -/
def pairOK : PLEvent → PLEvent → Bool
  | .enter s t, .exit s' t' => s == s' && t == t'
  | _, _ => false

/-- The trace is an alternation `enter, exit, enter, exit, …` of matching
stage-call boundaries: at every point at most one stage call is
outstanding, and each entered call exits before anything else happens. -/
def checkPaired : List PLEvent → Bool
  | [] => true
  | [_] => false
  | a :: b :: rest => pairOK a b && checkPaired rest

/-! ### Structural lemmas about the orchestrator -/

lemma runTurn_trace_cases (env : Env) (t : Nat) :
    (runTurn env t).trace = [.enter .capture t, .exit .capture t] ∨
    (runTurn env t).trace =
      [.enter .capture t, .exit .capture t, .enter .agent t, .exit .agent t] ∨
    (runTurn env t).trace =
      [.enter .capture t, .exit .capture t, .enter .agent t, .exit .agent t,
       .enter .tts t, .exit .tts t] := by
  unfold runTurn
  rcases env.transcribe t with e | transcript
  · cases e <;> simp
  · by_cases ht : transcript = ""
    · simp [ht]
    · simp only [ht, if_false, ite_false]
      rcases env.agentRun transcript t with e | msgs
      · simp
      · by_cases hr : responseText msgs = ""
        · simp [hr]
        · simp only [hr, if_false, ite_false]
          rcases env.tts (responseText msgs) t with e | u <;> simp

lemma runTurn_turnOf (env : Env) (t : Nat) :
    ∀ e ∈ (runTurn env t).trace, turnOf e = t := by
  intro e he
  rcases runTurn_trace_cases env t with h | h | h <;> rw [h] at he <;>
    simp only [List.mem_cons, List.not_mem_nil, or_false] at he
  · rcases he with rfl | rfl <;> rfl
  · rcases he with rfl | rfl | rfl | rfl <;> rfl
  · rcases he with rfl | rfl | rfl | rfl | rfl | rfl <;> rfl

lemma checkPaired_runTurn (env : Env) (t : Nat) :
    checkPaired (runTurn env t).trace = true := by
  rcases runTurn_trace_cases env t with h | h | h <;> rw [h] <;>
    simp [checkPaired, pairOK]

lemma checkPaired_append {l₁ l₂ : List PLEvent} (h₁ : checkPaired l₁ = true)
    (h₂ : checkPaired l₂ = true) : checkPaired (l₁ ++ l₂) = true := by
  induction l₁ using checkPaired.induct with
  | case1 => simpa
  | case2 a => simp [checkPaired] at h₁
  | case3 a b rest ih =>
    simp only [checkPaired, Bool.and_eq_true] at h₁
    simp only [List.cons_append, checkPaired, Bool.and_eq_true]
    exact ⟨h₁.1, ih h₁.2⟩

lemma runTurn_trace_head (env : Env) (t : Nat) :
    ∃ r, (runTurn env t).trace = PLEvent.enter .capture t :: r := by
  rcases runTurn_trace_cases env t with h | h | h <;> exact ⟨_, h⟩

lemma runLoop_trace_extend (env : Env) (fuel t : Nat) :
    ∃ l₂, (runLoop env (fuel + 1) t).trace = (runTurn env t).trace ++ l₂ := by
  unfold runLoop
  rcases h : (runTurn env t).result with e | s
  · cases e <;> exact ⟨[], by simp⟩
  · exact ⟨(runLoop env fuel (t + 1)).trace, rfl⟩

lemma runLoop_turns_ge (env : Env) :
    ∀ (fuel t : Nat), ∀ e ∈ (runLoop env fuel t).trace, t ≤ turnOf e := by
  intro fuel
  induction fuel with
  | zero => intro t e he; simp [runLoop] at he
  | succ fuel ih =>
    intro t e he
    unfold runLoop at he
    rcases h : (runTurn env t).result with exc | s
    · cases exc <;> rw [h] at he <;> simp only at he <;>
        exact le_of_eq (runTurn_turnOf env t e he).symm
    · rw [h] at he
      simp only [List.mem_append] at he
      rcases he with he | he
      · exact le_of_eq (runTurn_turnOf env t e he).symm
      · exact Nat.le_of_succ_le (ih (t + 1) e he)

lemma runTurn_pairwise (env : Env) (t : Nat) :
    ((runTurn env t).trace).Pairwise (fun a b => turnOf a ≤ turnOf b) := by
  rcases runTurn_trace_cases env t with h | h | h <;> rw [h] <;>
    simp [List.pairwise_cons, turnOf]

lemma runLoop_pairwise (env : Env) :
    ∀ (fuel t : Nat),
      ((runLoop env fuel t).trace).Pairwise (fun a b => turnOf a ≤ turnOf b) := by
  intro fuel
  induction fuel with
  | zero => intro t; simp [runLoop]
  | succ fuel ih =>
    intro t
    unfold runLoop
    rcases h : (runTurn env t).result with exc | s
    · cases exc <;> simp only <;> exact runTurn_pairwise env t
    · simp only
      rw [List.pairwise_append]
      refine ⟨runTurn_pairwise env t, ih (t + 1), ?_⟩
      intro a ha b hb
      rw [runTurn_turnOf env t a ha]
      exact Nat.le_of_succ_le (runLoop_turns_ge env fuel (t + 1) b hb)

lemma checkPaired_runLoop (env : Env) :
    ∀ (fuel t : Nat), checkPaired (runLoop env fuel t).trace = true := by
  intro fuel
  induction fuel with
  | zero => intro t; simp [runLoop, checkPaired]
  | succ fuel ih =>
    intro t
    unfold runLoop
    rcases h : (runTurn env t).result with exc | s
    · cases exc <;> simp only <;> exact checkPaired_runTurn env t
    · simp only
      exact checkPaired_append (checkPaired_runTurn env t) (ih (t + 1))

lemma runLoop_cons_ok (env : Env) (fuel t : Nat) {s : TurnStatus}
    (h : (runTurn env t).result = .ok s) :
    runLoop env (fuel + 1) t =
      ⟨(runTurn env t).trace ++ (runLoop env fuel (t + 1)).trace,
       (runTurn env t).ttsCalls ++ (runLoop env fuel (t + 1)).ttsCalls,
       (if s = .completed then [t] else []) ++ (runLoop env fuel (t + 1)).outputs,
       (runLoop env fuel (t + 1)).outcome⟩ := by
  conv_lhs => rw [runLoop]
  rw [h]

lemma runTurn_skip (env : Env) (t : Nat)
    (h : env.transcribe t = .error .failure ∨ env.transcribe t = .ok "") :
    runTurn env t =
      ⟨[.enter .capture t, .exit .capture t], [], .ok .skippedEmptyTranscript⟩ := by
  rcases h with h | h
  · unfold runTurn
    rw [h]
  · unfold runTurn
    rw [h]
    simp

lemma runTurn_ttsCalls_shape (env : Env) (t : Nat) :
    (runTurn env t).ttsCalls = [] ∨
    ∃ msgs, (runTurn env t).ttsCalls = [(t, responseText msgs)] ∧
      responseText msgs ≠ "" := by
  unfold runTurn
  rcases env.transcribe t with e | s
  · cases e <;> simp
  · by_cases ht : s = ""
    · simp [ht]
    · simp only [ht, if_false, ite_false]
      rcases env.agentRun s t with e | msgs
      · simp
      · by_cases hr : responseText msgs = ""
        · simp [hr]
        · simp only [hr, if_false, ite_false]
          rcases env.tts (responseText msgs) t with e | u
          · exact Or.inr ⟨msgs, rfl, hr⟩
          · exact Or.inr ⟨msgs, rfl, hr⟩

lemma runTurn_ttsCall_prop (env : Env) (t : Nat) :
    ∀ p ∈ (runTurn env t).ttsCalls, p.2 ≠ "" ∧ pyStrip p.2 = p.2 := by
  intro p hp
  rcases runTurn_ttsCalls_shape env t with h | ⟨msgs, h, hne⟩
  · rw [h] at hp; simp at hp
  · rw [h] at hp
    simp only [List.mem_singleton] at hp
    subst hp
    refine ⟨hne, ?_⟩
    show pyStrip (responseText msgs) = responseText msgs
    unfold responseText
    exact pyStrip_idem _

/-! ### Claims -/

/-- C1: across any whole run, the orchestrator never has two stage calls
(transcription, agent, synthesis/playback) outstanding at once, and turns
are strictly sequential.  `checkPaired` states the trace is an alternation
of stage-call entries each immediately followed by its matching exit — so at
most one call is outstanding at any prefix, and every entered stage call
(including a turn's synthesis call) finishes, successfully or by raising,
before any later event.  The `Pairwise` conjunct states turn numbers never
decrease along the trace, so every event of turn `N` — in particular the end
of its synthesis phase — precedes turn `N + 1`'s capture entry. -/
theorem C1_no_overlap_sequential_turns (env : Env) (fuel t : Nat) :
    checkPaired (runLoop env fuel t).trace = true ∧
    ((runLoop env fuel t).trace).Pairwise (fun a b => turnOf a ≤ turnOf b) :=
  ⟨checkPaired_runLoop env fuel t, runLoop_pairwise env fuel t⟩

/-- Environment whose agent backend raises an `Exception` on every turn. -/
def envC2agentFail : Env :=
  ⟨fun _ => .ok "hi", fun _ _ => .error .failure, fun _ _ => .ok ()⟩

/-- Environment whose transcription call raises an `Exception` every turn. -/
def envC2sttFail : Env :=
  ⟨fun _ => .error .failure, fun _ _ => .ok [], fun _ _ => .ok ()⟩

/-- Environment whose agent succeeds on turn 1 and raises from turn 2 on. -/
def envC2mixed : Env :=
  ⟨fun _ => .ok "hi",
   fun _ t => if t = 1 then .ok [⟨true, "ok"⟩] else .error .failure,
   fun _ _ => .ok ()⟩

/-- C2 counterexample: with ample fuel (5 turns) and an agent-stage failure
in turn 1, the run stops — turn 2's capture never enters the trace — because
the `except Exception` handler of `VoicePipeline.run` sits OUTSIDE the
`while True` loop (voice_agent.py lines 162-173), refuting "after a failed
turn the orchestrator starts the next turn fresh".  Moreover no pass of this
run yielded a pipeline output before the failure, so the handler's debug
print of the unbound loop variable `output` (line 173) raises
`UnboundLocalError`: a stage-triggered `Exception` propagates past `run`,
refuting "no stage error propagates past the orchestrator loop (only a
cancellation signal does)". -/
theorem C2_cex_failed_turn_ends_loop :
    (runLoop envC2agentFail 5 1).trace =
      [.enter .capture 1, .exit .capture 1, .enter .agent 1, .exit .agent 1] ∧
    PLEvent.enter .capture 2 ∉ (runLoop envC2agentFail 5 1).trace ∧
    (runLoop envC2agentFail 5 1).outcome = .stoppedOnError ∧
    (runModel envC2agentFail 5 1).2 = .error .failure :=
  ⟨by decide, by decide, by decide, rfl⟩

/-- C2 amended: (1) an exception escapes `run` only as the cancellation
signal, or as the boundary handler's own `UnboundLocalError` — an
`Exception` — which it raises exactly when the loop ended on a stage failure
before any turn had completed (the debug print at line 173 then references
the unbound loop variable `output`); (2) when some earlier turn did
complete, the stage error is swallowed and `run` returns normally; (3) a
transcription error is caught inside the capture stage and the next turn
starts fresh; but (4) an error escaping a turn's agent or synthesis stage
terminates the orchestrator loop: the run's whole trace ends with that
turn's and no further turn begins. -/
theorem C2_amended_error_propagation (env : Env) (fuel t : Nat) :
    (∀ e, (runModel env fuel t).2 = .error e →
      e = .cancel ∨
        (e = .failure ∧ (runLoop env fuel t).outcome = .stoppedOnError ∧
          (runLoop env fuel t).outputs = [])) ∧
    ((runLoop env fuel t).outcome = .stoppedOnError →
      (runLoop env fuel t).outputs ≠ [] → (runModel env fuel t).2 = .ok ()) ∧
    (env.transcribe t = .error .failure →
      (runLoop env (fuel + 1 + 1) t).trace =
        [.enter .capture t, .exit .capture t] ++ (runLoop env (fuel + 1) (t + 1)).trace) ∧
    ((runTurn env t).result = .error .failure →
      (runLoop env (fuel + 1) t).trace = (runTurn env t).trace ∧
      (runLoop env (fuel + 1) t).outcome = .stoppedOnError) := by
  refine ⟨?_, ?_, ?_, ?_⟩
  · intro e he
    unfold runModel at he
    simp only at he
    rcases ho : (runLoop env fuel t).outcome <;> rw [ho] at he
    · exact absurd he (by simp)
    · by_cases hout : (runLoop env fuel t).outputs = []
      · rw [if_pos hout] at he
        simp only [Except.error.injEq] at he
        exact Or.inr ⟨he.symm, rfl, hout⟩
      · rw [if_neg hout] at he
        exact absurd he (by simp)
    · simp only [Except.error.injEq] at he
      exact Or.inl he.symm
  · intro ho hout
    unfold runModel
    simp only
    rw [ho, if_neg hout]
  · intro h
    have hskip := runTurn_skip env t (Or.inl h)
    conv_lhs => rw [runLoop]
    rw [hskip]
  · intro h
    unfold runLoop
    rw [h]
    exact ⟨rfl, rfl⟩

/-- C2 witness: concrete runs exercising all four conjuncts of the amended
statement — the propagating `UnboundLocalError` when turn 1's agent fails
with nothing yet output, the swallowed error when a completed turn 1
precedes turn 2's failure, the fresh turn after a transcription error, and
the loop ending on a stage failure. -/
theorem C2_amended_error_propagation_witness :
    ((runModel envC2agentFail 1 1).2 = .error .failure ∧
      (Exc.failure = Exc.cancel ∨
        (Exc.failure = Exc.failure ∧
          (runLoop envC2agentFail 1 1).outcome = .stoppedOnError ∧
          (runLoop envC2agentFail 1 1).outputs = []))) ∧
    ((runLoop envC2mixed 2 1).outcome = .stoppedOnError ∧
      (runLoop envC2mixed 2 1).outputs ≠ [] ∧
      (runModel envC2mixed 2 1).2 = .ok ()) ∧
    (envC2sttFail.transcribe 1 = .error .failure ∧
      (runLoop envC2sttFail 2 1).trace =
        [.enter .capture 1, .exit .capture 1] ++ (runLoop envC2sttFail 1 2).trace) ∧
    ((runTurn envC2agentFail 1).result = .error .failure ∧
      (runLoop envC2agentFail 1 1).trace = (runTurn envC2agentFail 1).trace ∧
      (runLoop envC2agentFail 1 1).outcome = .stoppedOnError) :=
  ⟨⟨rfl, (C2_amended_error_propagation envC2agentFail 1 1).1 .failure rfl⟩,
   ⟨by decide, by decide,
    (C2_amended_error_propagation envC2mixed 2 1).2.1 (by decide) (by decide)⟩,
   ⟨rfl, (C2_amended_error_propagation envC2sttFail 0 1).2.2.1 rfl⟩,
   ⟨rfl, (C2_amended_error_propagation envC2agentFail 0 1).2.2.2 rfl⟩⟩

/-- C3: on text that is empty after stripping, `_play_tts_from_text` returns
immediately (lines 33-36): no synthesis stream is requested, no PyAudio
instance or output stream is created, and no error can surface. -/
theorem C3_empty_text_short_circuit (text : String) (chunks : List (List Nat))
    (fail : Option Exc) (h : pyStrip text = "") :
    playTTS text chunks fail = ([], .ok ()) := by
  simp [playTTS, h]

/-- C3 witness at the spec's own example `speak("   ")`, with a backend that
would have failed had it been consulted. -/
theorem C3_empty_text_short_circuit_witness :
    pyStrip "   " = "" ∧ playTTS "   " [[1, 2]] (some .failure) = ([], .ok ()) :=
  ⟨by decide, C3_empty_text_short_circuit "   " [[1, 2]] (some .failure) (by decide)⟩

/-- C4: if turn `t`'s transcription raises an `Exception` or returns an
empty transcript, the agent stage is never entered for that turn (anywhere
in the whole run), and — given at least two turns of fuel — the next turn's
capture does begin. -/
theorem C4_empty_or_failed_transcription_skips_agent (env : Env) (fuel t : Nat)
    (h : env.transcribe t = .error .failure ∨ env.transcribe t = .ok "") :
    PLEvent.enter .agent t ∉ (runLoop env fuel t).trace ∧
    (2 ≤ fuel → PLEvent.enter .capture (t + 1) ∈ (runLoop env fuel t).trace) := by
  have hskip := runTurn_skip env t h
  constructor
  · intro hmem
    cases fuel with
    | zero => simp [runLoop] at hmem
    | succ f =>
      unfold runLoop at hmem
      rw [hskip] at hmem
      simp only [List.cons_append, List.nil_append, List.mem_cons] at hmem
      rcases hmem with h1 | h1 | h1
      · exact absurd h1 (by simp)
      · exact absurd h1 (by simp)
      · have := runLoop_turns_ge env f (t + 1) _ h1
        simp only [turnOf] at this
        omega
  · intro hf
    obtain ⟨f, rfl⟩ : ∃ f, fuel = f + 1 + 1 := ⟨fuel - 2, by omega⟩
    rw [runLoop_cons_ok env (f + 1) t (by rw [hskip])]
    rw [hskip]
    simp only [List.cons_append, List.nil_append, List.mem_cons]
    obtain ⟨l₂, hl⟩ := runLoop_trace_extend env f (t + 1)
    obtain ⟨r, hr⟩ := runTurn_trace_head env (t + 1)
    rw [hl, hr]
    simp

/-- Environment for the C5 counterexample: the agent stream delivers one AI
message whose text carries surrounding whitespace. -/
def envC5 : Env :=
  ⟨fun _ => .ok "question", fun _ _ => .ok [⟨true, " hi "⟩], fun _ _ => .ok ()⟩

/-- C5 counterexample: `_agent_stream` joins the chunk texts AND strips the
result (`"".join(agent_response_chunks).strip()`, line 140), so the response
it forwards is `"hi"`, not the plain concatenation `" hi "` of the chunk
texts in arrival order — the claim's equality fails on this input. -/
theorem C5_cex_response_is_stripped :
    (runTurn envC5 1).ttsCalls = [(1, "hi")] ∧
    String.join (agentChunks [⟨true, " hi "⟩]) = " hi " ∧
    ("hi" : String) ≠ " hi " := by
  decide

/-- C5 amended: for any turn whose transcript is non-empty and whose agent
stream succeeds, the response forwarded downstream equals the
whitespace-STRIPPED concatenation of the AI chunk texts in arrival order
(the response is computed only from the fully consumed stream), and — when
that stripped response is non-empty — it is handed to the synthesis stage
exactly once, with the agent stage call exiting before the synthesis call
enters. -/
theorem C5_amended_response_concatenation (env : Env) (t : Nat) (s : String)
    (msgs : List AgentMsg) (h1 : env.transcribe t = .ok s) (h2 : s ≠ "")
    (h3 : env.agentRun s t = .ok msgs) (h4 : responseText msgs ≠ "") :
    responseText msgs = pyStrip (String.join (agentChunks msgs)) ∧
    (runTurn env t).ttsCalls = [(t, responseText msgs)] ∧
    (runTurn env t).trace =
      [.enter .capture t, .exit .capture t, .enter .agent t, .exit .agent t,
       .enter .tts t, .exit .tts t] := by
  refine ⟨rfl, ?_⟩
  unfold runTurn
  rw [h1]
  simp only [h2, if_false, ite_false]
  rw [h3]
  simp only [h4, if_false, ite_false]
  rcases env.tts (responseText msgs) t with e | u <;> exact ⟨rfl, rfl⟩

/-- Environment for the C5 witness: three stream messages, one of which is
not an AI message and is therefore not a chunk. -/
def envC5w : Env :=
  ⟨fun _ => .ok "q",
   fun _ _ => .ok [⟨true, " hi "⟩, ⟨false, "tool noise"⟩, ⟨true, "there"⟩],
   fun _ _ => .ok ()⟩

/-- C5 witness: instantiates the amended statement on a concrete stream. -/
theorem C5_amended_response_concatenation_witness :
    (envC5w.transcribe 1 = .ok "q" ∧ ("q" : String) ≠ "" ∧
      envC5w.agentRun "q" 1 = .ok [⟨true, " hi "⟩, ⟨false, "tool noise"⟩, ⟨true, "there"⟩] ∧
      responseText [⟨true, " hi "⟩, ⟨false, "tool noise"⟩, ⟨true, "there"⟩] ≠ "") ∧
    (responseText [⟨true, " hi "⟩, ⟨false, "tool noise"⟩, ⟨true, "there"⟩] =
        pyStrip (String.join (agentChunks [⟨true, " hi "⟩, ⟨false, "tool noise"⟩, ⟨true, "there"⟩])) ∧
      (runTurn envC5w 1).ttsCalls =
        [(1, responseText [⟨true, " hi "⟩, ⟨false, "tool noise"⟩, ⟨true, "there"⟩])] ∧
      (runTurn envC5w 1).trace =
        [.enter .capture 1, .exit .capture 1, .enter .agent 1, .exit .agent 1,
         .enter .tts 1, .exit .tts 1]) :=
  ⟨⟨rfl, by decide, rfl, by decide⟩,
   C5_amended_response_concatenation envC5w 1 "q" _ rfl (by decide) rfl (by decide)⟩

/-- C6 counterexample: the serialization of a `user_input` event with a
non-empty audio payload (events.py line 265) contains no `audio` field at
all — the whole record is just `type` and `ts` — so the claim that every
audio-carrying event's canonical serialization base64-encodes its payload
fails for `user_input`. -/
theorem C6_cex_user_input_audio_omitted :
    getField "audio" (event_to_dict (UserInputEvent.create [1, 2, 3] 0)) = none ∧
    event_to_dict (UserInputEvent.create [1, 2, 3] 0) =
      [("type", .str "user_input"), ("ts", .int 0)] :=
  ⟨rfl, rfl⟩

/-- C6 amended: the base64 round trip holds for `tts_chunk` events — their
serialization carries the payload base64-encoded in the `audio` field and
decoding it recovers exactly the original bytes — while the `user_input`
serialization omits its audio payload entirely. -/
theorem C6_amended_tts_chunk_roundtrip (audio : List Nat) (ts : Int)
    (h : ∀ b ∈ audio, b < 256) :
    getField "audio" (event_to_dict (TTSChunkEvent.create audio ts)) =
      some (.str ⟨b64EncodeGroups audio⟩) ∧
    b64DecodeGroups (b64EncodeGroups audio) = some audio ∧
    getField "audio" (event_to_dict (UserInputEvent.create audio ts)) = none :=
  ⟨rfl, b64_roundtrip audio h, rfl⟩

/-- C6 witness on a concrete three-byte payload. -/
theorem C6_amended_tts_chunk_roundtrip_witness :
    (∀ b ∈ [0, 255, 77], b < 256) ∧
    (getField "audio" (event_to_dict (TTSChunkEvent.create [0, 255, 77] 5)) =
        some (.str ⟨b64EncodeGroups [0, 255, 77]⟩) ∧
      b64DecodeGroups (b64EncodeGroups [0, 255, 77]) = some [0, 255, 77] ∧
      getField "audio" (event_to_dict (UserInputEvent.create [0, 255, 77] 5)) = none) :=
  ⟨by decide, C6_amended_tts_chunk_roundtrip [0, 255, 77] 5 (by decide)⟩

/-- C7: when the synthesis stream yields `k` chunks and then raises, the
call writes exactly those `k` chunks to the device in arrival order, then
the `finally` block (lines 58-61) releases the device — stop, close,
terminate — and only then does the error surface to the caller. -/
theorem C7_midstream_failure_discipline (text : String)
    (chunks : List (List Nat)) (e : Exc) (h : pyStrip text ≠ "") :
    playTTS text chunks (some e) =
      (TTSAct.synthRequest (pyStrip text) :: TTSAct.deviceOpen playbackConfig ::
         (chunks.map TTSAct.write ++
           [TTSAct.stopStream, TTSAct.closeStream, TTSAct.terminate]),
       .error e) := by
  simp [playTTS, h]

/-- C7 witness: the spec's mid-stream-failure scenario at 2 delivered chunks. -/
theorem C7_midstream_failure_discipline_witness :
    pyStrip "hello" ≠ "" ∧
    playTTS "hello" [[1], [2]] (some .failure) =
      (TTSAct.synthRequest (pyStrip "hello") :: TTSAct.deviceOpen playbackConfig ::
         ([[1], [2]].map TTSAct.write ++
           [TTSAct.stopStream, TTSAct.closeStream, TTSAct.terminate]),
       .error .failure) :=
  ⟨by decide, C7_midstream_failure_discipline "hello" [[1], [2]] .failure (by decide)⟩

/-- C8 counterexample: a concrete `speak` call that plays audio opens the
device with `rate=16000` (voice_agent.py line 47), not the 24 kHz the claim
asserts. -/
theorem C8_cex_playback_rate_is_16k :
    TTSAct.deviceOpen playbackConfig ∈ (playTTS "hi" [[0]] none).1 ∧
    playbackConfig.rate = 16000 ∧ playbackConfig.rate ≠ 24000 := by
  decide

/-- C8 amended: every `speak` call that plays audio opens the output device
configured as `paInt16` (16-bit signed), mono, 16 kHz — not 24 kHz — with
1600 frames per buffer. -/
theorem C8_amended_device_config (text : String) (chunks : List (List Nat))
    (fail : Option Exc) (h : pyStrip text ≠ "") :
    TTSAct.deviceOpen playbackConfig ∈ (playTTS text chunks fail).1 ∧
    playbackConfig.format = paInt16 ∧ playbackConfig.channels = 1 ∧
    playbackConfig.rate = 16000 ∧ playbackConfig.framesPerBuffer = 1600 := by
  refine ⟨?_, rfl, rfl, rfl, rfl⟩
  simp [playTTS, h]

/-- C8 witness on a concrete playing call. -/
theorem C8_amended_device_config_witness :
    pyStrip "ok" ≠ "" ∧
    (TTSAct.deviceOpen playbackConfig ∈ (playTTS "ok" [] none).1 ∧
      playbackConfig.format = paInt16 ∧ playbackConfig.channels = 1 ∧
      playbackConfig.rate = 16000 ∧ playbackConfig.framesPerBuffer = 1600) :=
  ⟨by decide, C8_amended_device_config "ok" [] none (by decide)⟩

/-- C9 counterexample: `ToolResultEvent.create` succeeds on an arbitrary
call id — nothing in `events.py` or `voice_agent.py` validates it — so a
stream consisting of a single orphan `tool_result` is constructible; it
violates the spec's well-formedness predicate, and no rejection occurs. -/
theorem C9_cex_orphan_tool_result_constructible :
    ToolResultEvent.create "orphan" "get_weather" "sunny" 0 =
      VoiceAgentEvent.toolResult "orphan" "get_weather" "sunny" 0 ∧
    wellFormedStream [ToolResultEvent.create "orphan" "get_weather" "sunny" 0] = false :=
  ⟨rfl, rfl⟩

/-- C9 amended: the event model performs no validation — `create` returns a
`tool_result` event carrying whatever call id it is given, and appending it
to any stream whose `tool_call` ids do not include that id yields a
constructed (not rejected) stream that fails the spec's well-formedness
predicate.  The matching-id invariant is at most a property of the external
reasoning backend, not something this code checks or enforces. -/
theorem C9_amended_no_orphan_rejection (cid name res : String) (ts : Int)
    (es : List VoiceAgentEvent) (h : cid ∉ toolCallIds es) :
    ToolResultEvent.create cid name res ts =
      VoiceAgentEvent.toolResult cid name res ts ∧
    wellFormedStream (es ++ [ToolResultEvent.create cid name res ts]) = false := by
  refine ⟨rfl, ?_⟩
  unfold wellFormedStream
  rw [wfAux_append]
  have hmem : cid ∉ seenAfter es [] := by
    rw [mem_seenAfter]
    simp [h]
  simp [wfAux, hmem]

/-- C9 witness: an orphan appended after a stream holding one unrelated
`tool_call`. -/
theorem C9_amended_no_orphan_rejection_witness :
    ("orphan2" ∉ toolCallIds [ToolCallEvent.create "call1" "get_weather" [] 0]) ∧
    (ToolResultEvent.create "orphan2" "get_weather" "sunny" 3 =
        VoiceAgentEvent.toolResult "orphan2" "get_weather" "sunny" 3 ∧
      wellFormedStream ([ToolCallEvent.create "call1" "get_weather" [] 0] ++
          [ToolResultEvent.create "orphan2" "get_weather" "sunny" 3]) = false) :=
  ⟨by simp [toolCallIds, ToolCallEvent.create],
   C9_amended_no_orphan_rejection "orphan2" "get_weather" "sunny" 3 _
     (by simp [toolCallIds, ToolCallEvent.create])⟩

/-- C10: every text the pipeline ever hands to the synthesis/playback stage
is non-empty and invariant under stripping (it was already stripped by
`_agent_stream` and forwarded only when non-empty), so the empty-text
short-circuit of `_play_tts_from_text` can never fire on a pipeline-supplied
text: its action trace is never empty. -/
theorem C10_tts_text_nonempty (env : Env) (fuel t : Nat) :
    ∀ p ∈ (runLoop env fuel t).ttsCalls,
      p.2 ≠ "" ∧ pyStrip p.2 = p.2 ∧
      ∀ (chunks : List (List Nat)) (fail : Option Exc),
        (playTTS p.2 chunks fail).1 ≠ [] := by
  induction fuel generalizing t with
  | zero => intro p hp; simp [runLoop] at hp
  | succ fuel ih =>
    intro p hp
    have hbase : p ∈ (runTurn env t).ttsCalls → _ := runTurn_ttsCall_prop env t p
    unfold runLoop at hp
    have hmain : p.2 ≠ "" ∧ pyStrip p.2 = p.2 := by
      rcases h : (runTurn env t).result with exc | s
      · cases exc <;> rw [h] at hp <;> exact hbase hp
      · rw [h] at hp
        simp only [List.mem_append] at hp
        rcases hp with hp | hp
        · exact hbase hp
        · exact ⟨(ih (t + 1) p hp).1, (ih (t + 1) p hp).2.1⟩
    refine ⟨hmain.1, hmain.2, ?_⟩
    intro chunks fail
    have : ¬ pyStrip p.2 = "" := by rw [hmain.2]; exact hmain.1
    simp [playTTS, this]

/-- Environment for the C10 witness. -/
def envC10 : Env :=
  ⟨fun _ => .ok "x", fun _ _ => .ok [⟨true, "hi"⟩], fun _ _ => .ok ()⟩

/-- C10 witness at a concrete run that makes one synthesis call. -/
theorem C10_tts_text_nonempty_witness :
    ((1, "hi") ∈ (runLoop envC10 1 1).ttsCalls) ∧
    (("hi" : String) ≠ "" ∧ pyStrip "hi" = "hi" ∧
      ∀ (chunks : List (List Nat)) (fail : Option Exc),
        (playTTS "hi" chunks fail).1 ≠ []) :=
  ⟨by decide, C10_tts_text_nonempty envC10 1 1 (1, "hi") (by decide)⟩

/-- Environment for the C4 witness: transcription reports no speech. -/
def envC4 : Env :=
  ⟨fun _ => .ok "", fun _ _ => .ok [], fun _ _ => .ok ()⟩

/-- C4 witness: a concrete two-turn run whose first transcript is empty. -/
theorem C4_empty_or_failed_transcription_skips_agent_witness :
    (envC4.transcribe 1 = .error .failure ∨ envC4.transcribe 1 = .ok "") ∧
    (PLEvent.enter .agent 1 ∉ (runLoop envC4 2 1).trace ∧
      (2 ≤ 2 → PLEvent.enter .capture 2 ∈ (runLoop envC4 2 1).trace)) :=
  ⟨Or.inr rfl,
   C4_empty_or_failed_transcription_skips_agent envC4 2 1 (Or.inr rfl)⟩
